import Mathlib

/-!
Verification of the eye-color analyzer core (`analyzer` module of the
`eye_color` repository).  The JavaScript source is shallowly embedded:

* pixel channels and buffers are natural numbers / lists of naturals;
* JavaScript floating-point arithmetic on the HSL path is embedded over `ℚ`
  (the source only uses `+ - * / max min` and comparisons there, which are
  exact in rationals);
* the Lab path (`Math.pow` with exponents 2.4 and 1/3) is embedded over `ℝ`
  with `Real.rpow`;
* `deltaE76` returns `WithTop ℝ`, where `⊤` models the JavaScript `Infinity`
  sentinel returned for unparseable colors;
* `Array.prototype.sort` (stable since ES2019) is embedded as `List.mergeSort`
  on index-decorated entries, ordered lexicographically by (comparator key,
  original position) — the standard characterisation of a stable sort;
* `Math.round x` is `⌊x + 1/2⌋` (JavaScript rounds halves toward +∞).
-/

attribute [local semireducible] Rat.mul Rat.inv Rat.add Rat.sub Rat.ofScientific

/-- JavaScript `Math.round`: round half toward positive infinity. -/
def jsRound (q : ℚ) : ℤ := ⌊q + 1/2⌋

/-- JavaScript `Math.max` on two numbers. -/
def jsMax (a b : ℚ) : ℚ := if a ≤ b then b else a

/-- JavaScript `Math.min` on two numbers. -/
def jsMin (a b : ℚ) : ℚ := if a ≤ b then a else b

/-- An RGB triple as produced by `hexToRgb` (8-bit channels). -/
structure RGB where
  r : ℕ
  g : ℕ
  b : ℕ
deriving DecidableEq, Repr

/-- Result record of `getHSL`: hue (degrees), saturation, lightness. -/
structure HSL where
  h : ℚ
  s : ℚ
  l : ℚ
deriving DecidableEq, Repr

/-- Embedding of the source `getHSL(r, g, b)` (analyzer lines 110–124),
channel values divided by 255, hue multiplied by 360 at the end.  The
branch structure (including the absence of a division by 6 on the ratio
term in the `max === gn` and final branches) is kept exactly as written. -/
def getHSL (r g b : ℚ) : HSL :=
  let rn := r / 255
  let gn := g / 255
  let bn := b / 255
  let mx := jsMax rn (jsMax gn bn)
  let mn := jsMin rn (jsMin gn bn)
  let l := (mx + mn) / 2
  if mx = mn then ⟨0, 0, l⟩
  else
    let d := mx - mn
    let s := if l > 1/2 then d / (2 - mx - mn) else d / (mx + mn)
    let h :=
      if mx = rn then ((gn - bn) / d + (if gn < bn then 6 else 0)) / 6
      else if mx = gn then (bn - rn) / d + 2 / 6
      else (rn - gn) / d + 4 / 6
    ⟨h * 360, s, l⟩

/-- The conventional six-sector HSL hue computation as described by the
specification: in every sector the offset is added to the ratio before the
division by six.  This definition follows the specification's words and is
used to compare against the source's `getHSL`. -/
def getHSLConventional (r g b : ℚ) : HSL :=
  let rn := r / 255
  let gn := g / 255
  let bn := b / 255
  let mx := jsMax rn (jsMax gn bn)
  let mn := jsMin rn (jsMin gn bn)
  let l := (mx + mn) / 2
  if mx = mn then ⟨0, 0, l⟩
  else
    let d := mx - mn
    let s := if l > 1/2 then d / (2 - mx - mn) else d / (mx + mn)
    let h :=
      if mx = rn then ((gn - bn) / d + (if gn < bn then 6 else 0)) / 6
      else if mx = gn then ((bn - rn) / d + 2) / 6
      else ((rn - gn) / d + 4) / 6
    ⟨h * 360, s, l⟩

/-- Hex digit characters as produced by JavaScript `Number.toString(16)`
(lowercase). -/
def hexChar (n : ℕ) : Char :=
  if n < 10 then Char.ofNat (48 + n) else Char.ofNat (87 + n)

/-- `Math.max(0, Math.min(255, x))` from `rgbToHex`. -/
def clamp255 (x : ℚ) : ℚ := jsMax 0 (jsMin 255 x)

/-- One channel of `rgbToHex`: clamp, round, convert to a two-digit hex
string.  For values in [0,255] the source's `toString(16)` plus the
single-digit zero-padding is exactly the two-digit base-16 expansion. -/
def hexByte (x : ℚ) : List Char :=
  let n := (jsRound (clamp255 x)).toNat
  [hexChar (n / 16), hexChar (n % 16)]

/-- Embedding of the source `rgbToHex(r, g, b)` (analyzer lines 27–32):
`'#' +` the three two-digit channel strings joined together. -/
def rgbToHex (r g b : ℚ) : String :=
  ⟨'#' :: (hexByte r ++ hexByte g ++ hexByte b)⟩

/-- Value of one hex digit, case-insensitive (the `[a-f\d]` character class
under the `/i` flag, then `parseInt(_, 16)`). -/
def hexVal (c : Char) : Option ℕ :=
  if 48 ≤ c.toNat ∧ c.toNat ≤ 57 then some (c.toNat - 48)
  else if 97 ≤ c.toNat ∧ c.toNat ≤ 102 then some (c.toNat - 87)
  else if 65 ≤ c.toNat ∧ c.toNat ≤ 70 then some (c.toNat - 55)
  else none

/-- Embedding of the source `hexToRgb(hex)` (analyzer lines 37–44): an
optional leading `#`, then exactly six case-insensitive hex digits; any
other shape yields `none` (the source's `null`). -/
def hexToRgb (s : String) : Option RGB :=
  let cs := if s.data.head? = some '#' then s.data.tail else s.data
  match cs with
  | [c1, c2, c3, c4, c5, c6] =>
    match hexVal c1, hexVal c2, hexVal c3, hexVal c4, hexVal c5, hexVal c6 with
    | some h1, some h2, some h3, some h4, some h5, some h6 =>
      some ⟨16 * h1 + h2, 16 * h3 + h4, 16 * h5 + h6⟩
    | _, _, _, _, _, _ => none
  | _ => none

/-- One entry of the source's `EYE_COLOR_CATEGORIES` table. -/
structure EyeCategory where
  name : String
  hex : String
deriving DecidableEq, Repr

def EYE_COLOR_CATEGORIES.blue : EyeCategory := ⟨"Blue", "#4682B4"⟩

def EYE_COLOR_CATEGORIES.green : EyeCategory := ⟨"Green", "#228B22"⟩

def EYE_COLOR_CATEGORIES.hazel : EyeCategory := ⟨"Hazel", "#8E7618"⟩

def EYE_COLOR_CATEGORIES.brown : EyeCategory := ⟨"Brown", "#634E34"⟩

def EYE_COLOR_CATEGORIES.gray : EyeCategory := ⟨"Gray", "#708090"⟩

def EYE_COLOR_CATEGORIES.amber : EyeCategory := ⟨"Amber", "#FFBF00"⟩

def EYE_COLOR_CATEGORIES.violet : EyeCategory := ⟨"Violet", "#5A5C9E"⟩

/-- Embedding of the source `classifyEyeColor(hex)` (analyzer lines
130–160): gray on parse failure or low saturation, then the ordered
hue-band rules, first match wins. -/
def classifyEyeColor (hex : String) : EyeCategory :=
  match hexToRgb hex with
  | none => EYE_COLOR_CATEGORIES.gray
  | some rgb =>
    let hsl := getHSL rgb.r rgb.g rgb.b
    let hue := hsl.h
    let saturation := hsl.s
    if saturation < 0.1 then EYE_COLOR_CATEGORIES.gray
    else if 260 ≤ hue ∧ hue ≤ 300 then EYE_COLOR_CATEGORIES.violet
    else if 200 ≤ hue ∧ hue < 260 then EYE_COLOR_CATEGORIES.blue
    else if 170 ≤ hue ∧ hue < 200 then
      (if saturation > 0.15 then EYE_COLOR_CATEGORIES.green else EYE_COLOR_CATEGORIES.blue)
    else if 80 ≤ hue ∧ hue < 170 then EYE_COLOR_CATEGORIES.green
    else if 50 ≤ hue ∧ hue < 80 then EYE_COLOR_CATEGORIES.hazel
    else if 35 ≤ hue ∧ hue < 50 then EYE_COLOR_CATEGORIES.amber
    else if 20 ≤ hue ∧ hue < 35 then EYE_COLOR_CATEGORIES.brown
    else if 0 ≤ hue ∧ hue < 20 then EYE_COLOR_CATEGORIES.brown
    else if 340 ≤ hue ∧ hue ≤ 360 then EYE_COLOR_CATEGORIES.brown
    else if 210 ≤ hue ∧ hue ≤ 270 ∧ saturation < 0.25 then EYE_COLOR_CATEGORIES.blue
    else EYE_COLOR_CATEGORIES.gray

/-- Lab triple (CIE L*a*b*). -/
structure Lab where
  L : ℝ
  a : ℝ
  b : ℝ

/-- sRGB gamma expansion of one normalized channel (`rgbToLab`, first
stage). -/
noncomputable def gammaExpand (c : ℝ) : ℝ :=
  if c > 0.04045 then ((c + 0.055) / 1.055) ^ (2.4 : ℝ) else c / 12.92

/-- The piecewise cube-root transform of `rgbToLab` (third stage). -/
noncomputable def labF (t : ℝ) : ℝ :=
  if t > 0.008856 then t ^ ((1 : ℝ)/3) else 7.787 * t + 16 / 116

/-- Embedding of the source `rgbToLab(r, g, b)` (analyzer lines 49–65). -/
noncomputable def rgbToLab (r g b : ℕ) : Lab :=
  let rn := gammaExpand ((r : ℝ) / 255)
  let gn := gammaExpand ((g : ℝ) / 255)
  let bn := gammaExpand ((b : ℝ) / 255)
  let x := (rn * 0.4124 + gn * 0.3576 + bn * 0.1805) / 0.95047
  let y := (rn * 0.2126 + gn * 0.7152 + bn * 0.0722) / 1.0
  let z := (rn * 0.0193 + gn * 0.1192 + bn * 0.9505) / 1.08883
  ⟨116 * labF y - 16, 500 * (labF x - labF y), 200 * (labF y - labF z)⟩

/-- Embedding of the source `deltaE76(hex1, hex2)` (analyzer lines 70–81):
Euclidean distance of the Lab coordinates; `⊤` models the `Infinity`
returned when either hex string fails to parse. -/
noncomputable def deltaE76 (hex1 hex2 : String) : WithTop ℝ :=
  match hexToRgb hex1, hexToRgb hex2 with
  | some p, some q =>
    let lab1 := rgbToLab p.r p.g p.b
    let lab2 := rgbToLab q.r q.g q.b
    ((Real.sqrt ((lab1.L - lab2.L) ^ 2 + (lab1.a - lab2.a) ^ 2 +
      (lab1.b - lab2.b) ^ 2) : ℝ) : WithTop ℝ)
  | _, _ => ⊤

/-- One entry of the reference (Pantone) color table; the table itself is
an external dataset loaded at startup, so the matcher is embedded over an
arbitrary table. -/
structure RefColor where
  name : String
  hex : String
deriving DecidableEq

/-- A reference-table entry decorated with its original table position and
its `deltaE76` distance to the query color (the intermediate list the
source builds with `pantoneData.map` before sorting). -/
structure DistEntry where
  idx : ℕ
  name : String
  hex : String
  distance : WithTop ℝ

/-- The ordering used to model `withDistance.sort((a, b) => a.distance -
b.distance)`: JavaScript's sort is stable (ES2019), so the sorted result
is ordered lexicographically by (distance, original position). -/
def distLE (a b : DistEntry) : Prop :=
  a.distance < b.distance ∨ (a.distance = b.distance ∧ a.idx ≤ b.idx)

noncomputable instance : DecidableRel distLE :=
  fun _ _ => Classical.propDecidable _

noncomputable def withDistance (table : List RefColor) (hex : String) : List DistEntry :=
  table.enum.map fun p => ⟨p.1, p.2.name, p.2.hex, deltaE76 hex p.2.hex⟩

noncomputable def sortedMatches (table : List RefColor) (hex : String) : List DistEntry :=
  (withDistance table hex).mergeSort fun a b => decide (distLE a b)

/-- `Math.round` on a possibly-infinite distance (`Math.round(Infinity)`
is `Infinity`). -/
noncomputable def roundTop (d : WithTop ℝ) : WithTop ℤ :=
  d.map fun x => ⌊x + 1/2⌋

/-- Output record of `findPantoneMatches`. -/
structure PantoneMatch where
  name : String
  hex : String
  distance : WithTop ℤ

/-- Embedding of the source `findPantoneMatches(hex, count)` (analyzer
lines 86–97): decorate with distances, stable-sort ascending by distance,
take `count`, replace dashes in names and round distances. -/
noncomputable def findPantoneMatches (table : List RefColor) (hex : String)
    (count : ℕ) : List PantoneMatch :=
  ((sortedMatches table hex).take count).map fun e =>
    ⟨e.name.replace "-" " ", e.hex, roundTop e.distance⟩

/-- Offsets visited by the JavaScript loop
`for (let d = -radius; d <= radius; d += 2)` (exact in rationals). -/
def pupilOffsets (radius : ℚ) : List ℚ :=
  (List.range (radius.floor.toNat + 1)).map fun k => -radius + 2 * (k : ℚ)

/-- Embedding of the source `findPupilCenter(pixels, width, height)`
(analyzer lines 165–194): scan a disc-bounding square around the image
center on a stride of 2, tracking the coordinate of minimal HSL lightness
(first minimum wins; the initial best is the image center itself). -/
def findPupilCenter (pixels : List ℕ) (w h : ℕ) : ℚ × ℚ :=
  let cx : ℚ := (w : ℚ) / 2
  let cy : ℚ := (h : ℚ) / 2
  let searchRadius : ℚ := jsMin (w : ℚ) (h : ℚ) * 0.35
  let offs := pupilOffsets searchRadius
  let best := offs.foldl (fun acc dy =>
    offs.foldl (fun acc dx =>
      let x := jsRound (cx + dx)
      let y := jsRound (cy + dy)
      if x < 0 ∨ (w : ℤ) ≤ x ∨ y < 0 ∨ (h : ℤ) ≤ y then acc
      else
        let i := (y.toNat * w + x.toNat) * 4
        if pixels.length ≤ i + 2 then acc
        else
          let r := pixels.getD i 0
          let g := pixels.getD (i + 1) 0
          let b := pixels.getD (i + 2) 0
          let lum := (getHSL r g b).l
          if lum < acc.2.2 then ((x : ℚ), (y : ℚ), lum) else acc) acc)
    (cx, cy, (1 : ℚ))
  (best.1, best.2.1)

/-- The annulus sampling pass of `getDominantColors` (analyzer lines
202–227).  The source compares `Math.sqrt(dx*dx + dy*dy)` against the two
radii; both sides are nonnegative, so the embedding compares squares,
which is equivalent. -/
def annulusSamples (pixels : List ℕ) (w h : ℕ) : List RGB :=
  let c := findPupilCenter pixels w h
  let maxRadius : ℚ := jsMin (w : ℚ) (h : ℚ) * 0.45
  let innerRadius := maxRadius * 0.22
  let outerRadius := maxRadius * 0.85
  (List.range h).flatMap fun (y : ℕ) =>
    (List.range w).filterMap fun (x : ℕ) =>
      let dx := (x : ℚ) - c.1
      let dy := (y : ℚ) - c.2
      if dx * dx + dy * dy < innerRadius * innerRadius ∨
          dx * dx + dy * dy > outerRadius * outerRadius then none
      else
        let i : ℕ := (y * w + x) * 4
        if pixels.length ≤ i + 3 then none
        else
          let rv := pixels.getD i 0
          let g := pixels.getD (i + 1) 0
          let b := pixels.getD (i + 2) 0
          let a := pixels.getD (i + 3) 255
          if a < 200 then none
          else
            let hsl := getHSL rv g b
            if hsl.l > 0.88 ∨ hsl.l < 0.08 then none
            else if hsl.s < 0.04 then none
            else some ⟨rv, g, b⟩

/-- Values visited by `for (let v = lo; v < hi; v += 2)`. -/
def strideRange (lo hi : ℕ) : List ℕ :=
  (List.range ((hi - lo + 1) / 2)).map fun k => lo + 2 * k

/-- The central-rectangle fallback pass of `getDominantColors` (analyzer
lines 230–245): central 50%×50% rectangle, stride 2 per axis, looser
lightness/saturation filter.  `Math.floor` of the nonnegative bounds is
`Nat.floor`. -/
def fallbackSamples (pixels : List ℕ) (w h : ℕ) : List RGB :=
  let xMin := ((w : ℚ) * 0.25).floor.toNat
  let xMax := ((w : ℚ) * 0.75).floor.toNat
  let yMin := ((h : ℚ) * 0.25).floor.toNat
  let yMax := ((h : ℚ) * 0.75).floor.toNat
  (strideRange yMin yMax).flatMap fun y =>
    (strideRange xMin xMax).filterMap fun x =>
      let i : ℕ := (y * w + x) * 4
      if pixels.length ≤ i + 3 then none
      else
        let r := pixels.getD i 0
        let g := pixels.getD (i + 1) 0
        let b := pixels.getD (i + 2) 0
        let a := pixels.getD (i + 3) 255
        if a < 200 then none
        else
          let hsl := getHSL r g b
          if hsl.l > 0.92 ∨ hsl.l < 0.06 ∨ hsl.s < 0.05 then none
          else some ⟨r, g, b⟩

/-- The sample-collection phase of `getDominantColors` (analyzer lines
206–246): the annulus pass, and if it produced fewer than 20 samples the
fallback pass pushes onto the same `samples` array (the annulus samples
are kept, not discarded). -/
def collectSamples (pixels : List ℕ) (w h : ℕ) : List RGB :=
  let s1 := annulusSamples pixels w h
  if s1.length < 20 then s1 ++ fallbackSamples pixels w h else s1

/-- A clustering bucket (analyzer lines 254–269): running channel sums and
a pixel count, keyed by the quantized Lab triple. -/
structure Bucket where
  key : ℤ × ℤ × ℤ
  rSum : ℕ
  gSum : ℕ
  bSum : ℕ
  count : ℕ

/-- The quantized Lab bucket key `⌊L/4⌋, ⌊(a+128)/16⌋, ⌊(b+128)/16⌋`. -/
noncomputable def labKey (p : RGB) : ℤ × ℤ × ℤ :=
  let lab := rgbToLab p.r p.g p.b
  (⌊lab.L / 4⌋, ⌊(lab.a + 128) / 16⌋, ⌊(lab.b + 128) / 16⌋)

/-- One step of the bucket-accumulation loop: find the bucket for the
sample's key (JavaScript `Map` keeps insertion order, and distinct key
triples give distinct key strings), update it, or append a fresh bucket
initialized with this sample. -/
noncomputable def addSample (acc : List Bucket) (p : RGB) : List Bucket :=
  let k := labKey p
  if acc.any fun bk => bk.key = k then
    acc.map fun bk =>
      if bk.key = k then ⟨bk.key, bk.rSum + p.r, bk.gSum + p.g, bk.bSum + p.b, bk.count + 1⟩
      else bk
  else acc ++ [⟨k, p.r, p.g, p.b, 1⟩]

/-- A bucket reduced to its rounded mean RGB plus its count (the
`.map` on analyzer lines 272–277). -/
structure MeanColor where
  r : ℤ
  g : ℤ
  b : ℤ
  count : ℕ

noncomputable def bucketMeans (grouped : List Bucket) : List MeanColor :=
  grouped.map fun v =>
    ⟨jsRound ((v.rSum : ℚ) / (v.count : ℚ)), jsRound ((v.gSum : ℚ) / (v.count : ℚ)),
     jsRound ((v.bSum : ℚ) / (v.count : ℚ)), v.count⟩

/-- The ordering modelling `.sort((a, b) => b.count - a.count)` on the
bucket means: stable sort, hence lexicographic on (count descending,
discovery position ascending). -/
def countGE (a b : ℕ × MeanColor) : Prop :=
  b.2.count < a.2.count ∨ (a.2.count = b.2.count ∧ a.1 ≤ b.1)

instance (a b : ℕ × MeanColor) : Decidable (countGE a b) := by
  unfold countGE
  exact inferInstance

/-- One dominant color of the output: hex plus integer percentage. -/
structure DominantColor where
  hex : String
  percentage : ℤ
deriving DecidableEq

/-- The clustering phase of `getDominantColors` (analyzer lines 252–285):
bucket the samples by quantized Lab key, reduce buckets to mean colors,
sort by descending count (stable), keep the top `numColors`, and assign
each kept bucket `round(count / totalKept * 100)` percent. -/
noncomputable def clusterKept (samples : List RGB) (numColors : ℕ) : List MeanColor :=
  let grouped := samples.foldl addSample []
  let sorted := ((bucketMeans grouped).enum.mergeSort fun a b => decide (countGE a b)).map (·.2)
  sorted.take numColors

/-- The percentage assigned to one kept bucket:
`Math.round((s.count / total) * 100)`. -/
def bucketPercentage (total : ℕ) (s : MeanColor) : ℤ :=
  jsRound (((s.count : ℚ) / (total : ℚ)) * 100)

noncomputable def clusterSamples (samples : List RGB) (numColors : ℕ) : List DominantColor :=
  let kept := clusterKept samples numColors
  let total : ℕ := (kept.map (·.count)).sum
  kept.map fun s =>
    ⟨rgbToHex (s.r : ℚ) (s.g : ℚ) (s.b : ℚ), bucketPercentage total s⟩

/-- Embedding of the source `getDominantColors(pixels, width, height,
numColors)` (analyzer lines 200–286): sample collection (annulus +
fallback), the neutral-gray degenerate case, then clustering. -/
noncomputable def getDominantColors (pixels : List ℕ) (w h : ℕ) (numColors : ℕ) :
    List DominantColor :=
  let samples := collectSamples pixels w h
  if samples = [] then [⟨"#708090", 100⟩]
  else clusterSamples samples numColors

/-- One entry of the named-shade breakdown handed to `pickGeneralColor`. -/
structure NamedShade where
  name : String
  percentage : ℤ
  hex : String
deriving DecidableEq

/-- The brown keyword list of `pickGeneralColor` (analyzer line 318). -/
def brownNames : List String :=
  ["brown", "chocolate", "caramel", "walnut", "mocha", "espresso", "chestnut",
   "sienna", "umber", "sepia", "coffee", "hazel", "hazelnut", "toffee",
   "golden brown", "amber brown", "cocoa", "black olive"]

/-- The green keyword list of `pickGeneralColor` (analyzer line 319). -/
def greenNames : List String :=
  ["green", "sage", "olive", "forest", "sea", "moss", "fern", "jade", "teal",
   "emerald", "celadon", "gray green", "green haze", "pine"]

/-- JavaScript `toLowerCase()` on the ASCII shade names. -/
def jsToLower (s : String) : String := ⟨s.data.map Char.toLower⟩

/-- JavaScript `n.includes(kw)`: contiguous-substring containment. -/
def strIncludes (n kw : String) : Bool := decide (kw.data <:+: n.data)

/-- Sum of percentages over breakdown entries whose lowercased name
contains a keyword from `keywords` (the `brownPct`/`greenPct` accumulation
of `pickGeneralColor`, analyzer lines 320–326). -/
def keywordPct (keywords : List String) (nb : List NamedShade) : ℤ :=
  (nb.map fun e =>
    if keywords.any (fun kw => strIncludes (jsToLower e.name) kw) then e.percentage else 0).sum

def brownPct (nb : List NamedShade) : ℤ := keywordPct brownNames nb

def greenPct (nb : List NamedShade) : ℤ := keywordPct greenNames nb

/-- Result record of `pickGeneralColor`. -/
structure GeneralPick where
  hex : String
  category : EyeCategory
deriving DecidableEq

/-- Embedding of the source `pickGeneralColor(dominantColors,
namedBreakdown)` (analyzer lines 314–341): gray for an empty list; Hazel
when both keyword percentages reach 15; otherwise the most saturated of
the first six dominant colors (starting from the head with saturation 0)
is classified by hue band. -/
def pickGeneralColor (dominantColors : List DominantColor)
    (namedBreakdown : List NamedShade) : GeneralPick :=
  match dominantColors with
  | [] => ⟨"#708090", EYE_COLOR_CATEGORIES.gray⟩
  | d0 :: _ =>
    if 15 ≤ brownPct namedBreakdown ∧ 15 ≤ greenPct namedBreakdown then
      ⟨EYE_COLOR_CATEGORIES.hazel.hex, EYE_COLOR_CATEGORIES.hazel⟩
    else
      let best := ((dominantColors.take 6).foldl (fun acc c =>
        match hexToRgb c.hex with
        | none => acc
        | some rgb =>
          let s := (getHSL rgb.r rgb.g rgb.b).s
          if s > acc.2 then (c, s) else acc) (d0, (0 : ℚ))).1
      ⟨best.hex, classifyEyeColor best.hex⟩

/-- A 10×10 RGBA test buffer: every pixel is rgb(100,150,200); only the
pixels at (x,y) = (5,2) and (2,5) are opaque, all others have alpha 0. -/
def c3buf : List ℕ :=
  (List.range 100).flatMap fun j =>
    [100, 150, 200, if j = 25 ∨ j = 52 then 255 else 0]

/-- A 2×2 RGBA buffer in which every pixel is fully transparent. -/
def transparentBuf : List ℕ := List.replicate 16 0

/-- A named-shade breakdown whose single entry matches both a brown
keyword and a green keyword with weight 50. -/
def nbBrownGreen : List NamedShade := [⟨"brown green", 50, "#000000"⟩]

/-- A two-entry substitute reference table (the real Pantone dataset is an
external collaborator loaded at startup). -/
def pantoneTable2 : List RefColor := [⟨"ice-blue", "#aabbcc"⟩, ⟨"steel-gray", "#445566"⟩]




/-!
## Theorems
-/

/-- C1 (code bug): `getHSL` does not compute the conventional six-sector
hue.  At (r,g,b) = (200,255,0) the green-max branch evaluates
`(bn - rn)/d + 2/6` — the ratio term is not divided by 6 — producing hue
−2760/17 ≈ −162.35°, outside [0,360), while the conventional formula
(sector offset added before the division by six) gives 1240/17 ≈ 72.94°.
The saturation and lightness values agree with the symmetric formula. -/
theorem c1_getHSL_hue_not_conventional :
    getHSL 200 255 0 = ⟨-2760/17, 1, 1/2⟩ ∧
    getHSLConventional 200 255 0 = ⟨1240/17, 1, 1/2⟩ ∧
    (getHSL 200 255 0).h < 0 ∧
    getHSL 200 255 0 ≠ getHSLConventional 200 255 0 := by
  decide

/-- C10: any string that `hexToRgb` fails to parse is classified as the
Gray category; the classifier absorbs invalid colors instead of failing. -/
theorem c10_invalid_color_classified_gray (s : String) (h : hexToRgb s = none) :
    classifyEyeColor s = EYE_COLOR_CATEGORIES.gray := by
  unfold classifyEyeColor
  rw [h]

/-- Witness for C10 at the concrete non-color string "#zzz". -/
theorem c10_invalid_color_classified_gray_witness :
    hexToRgb "#zzz" = none ∧ classifyEyeColor "#zzz" = EYE_COLOR_CATEGORIES.gray :=
  ⟨by decide, c10_invalid_color_classified_gray "#zzz" (by decide)⟩

/-- C5 counterexample: the hex "#676494" has (source-computed) HSL hue
262.5° ∈ [210°,270°] and saturation 6/31 ≈ 0.194 ∈ [0.1, 0.25), yet
`classifyEyeColor` returns Violet, not Blue: the violet band [260°,300°]
precedes the slate override in the rule order. -/
theorem c5_slate_counterexample :
    hexToRgb "#676494" = some ⟨103, 100, 148⟩ ∧
    (210 ≤ (getHSL 103 100 148).h ∧ (getHSL 103 100 148).h ≤ 270 ∧
      0.1 ≤ (getHSL 103 100 148).s ∧ (getHSL 103 100 148).s < 0.25) ∧
    classifyEyeColor "#676494" = EYE_COLOR_CATEGORIES.violet ∧
    EYE_COLOR_CATEGORIES.violet ≠ EYE_COLOR_CATEGORIES.blue := by
  decide

/-- C5 (amended): for every valid color whose HSL hue is in [210°,260°)
and whose saturation is in [0.1,0.25), `classifyEyeColor` returns Blue
(via the blue band; on [260°,270°] the violet band precedes and the slate
override line is unreachable). -/
theorem c5_slate_band_blue (hex : String) (rgb : RGB)
    (hp : hexToRgb hex = some rgb)
    (h1 : 210 ≤ (getHSL rgb.r rgb.g rgb.b).h)
    (h2 : (getHSL rgb.r rgb.g rgb.b).h < 260)
    (h3 : 0.1 ≤ (getHSL rgb.r rgb.g rgb.b).s)
    (h4 : (getHSL rgb.r rgb.g rgb.b).s < 0.25) :
    classifyEyeColor hex = EYE_COLOR_CATEGORIES.blue := by
  unfold classifyEyeColor
  rw [hp]
  dsimp only
  rw [if_neg (not_lt.mpr h3)]
  rw [if_neg (by rintro ⟨ha, -⟩; linarith)]
  rw [if_pos ⟨by linarith, h2⟩]

/-- Witness for C5 (amended) at "#646794" (hue 217.5°, saturation 6/31). -/
theorem c5_slate_band_blue_witness :
    hexToRgb "#646794" = some ⟨100, 103, 148⟩ ∧
    210 ≤ (getHSL 100 103 148).h ∧ (getHSL 100 103 148).h < 260 ∧
    0.1 ≤ (getHSL 100 103 148).s ∧ (getHSL 100 103 148).s < 0.25 ∧
    classifyEyeColor "#646794" = EYE_COLOR_CATEGORIES.blue :=
  ⟨by decide, by decide, by decide, by decide, by decide,
    c5_slate_band_blue "#646794" ⟨100, 103, 148⟩ (by decide) (by decide)
      (by decide) (by decide) (by decide)⟩

/-- C4 counterexample: on the empty dominant-color list `pickGeneralColor`
returns Gray before the hazel override is consulted, even when both
keyword percentages are ≥ 15. -/
theorem c4_empty_list_counterexample :
    15 ≤ brownPct nbBrownGreen ∧ 15 ≤ greenPct nbBrownGreen ∧
    pickGeneralColor [] nbBrownGreen = ⟨"#708090", EYE_COLOR_CATEGORIES.gray⟩ ∧
    (pickGeneralColor [] nbBrownGreen).category ≠ EYE_COLOR_CATEGORIES.hazel := by
  decide

/-- C4 (amended): for every *non-empty* dominant-color list and every
named-shade breakdown whose brown-keyword and green-keyword percentage
sums both reach 15, `pickGeneralColor` returns the Hazel category,
regardless of the hue of any dominant color. -/
theorem c4_hazel_override (dc : List DominantColor) (nb : List NamedShade)
    (hne : dc ≠ []) (hb : 15 ≤ brownPct nb) (hg : 15 ≤ greenPct nb) :
    pickGeneralColor dc nb = ⟨EYE_COLOR_CATEGORIES.hazel.hex, EYE_COLOR_CATEGORIES.hazel⟩ := by
  match dc, hne with
  | d0 :: rest, _ =>
    unfold pickGeneralColor
    dsimp only
    rw [if_pos ⟨hb, hg⟩]

/-- Witness for C4 (amended): a blue dominant color is overridden to
Hazel by the keyword percentages. -/
theorem c4_hazel_override_witness :
    ([⟨"#4682B4", 100⟩] : List DominantColor) ≠ [] ∧
    15 ≤ brownPct nbBrownGreen ∧ 15 ≤ greenPct nbBrownGreen ∧
    pickGeneralColor [⟨"#4682B4", 100⟩] nbBrownGreen =
      ⟨EYE_COLOR_CATEGORIES.hazel.hex, EYE_COLOR_CATEGORIES.hazel⟩ :=
  ⟨by decide, by decide, by decide,
    c4_hazel_override [⟨"#4682B4", 100⟩] nbBrownGreen (by decide) (by decide) (by decide)⟩

set_option maxRecDepth 1000000 in
/-- C3 counterexample: on the 10×10 buffer `c3buf` the annulus pass yields
2 samples (fewer than 20), the central-rectangle pass yields none, and the
final sample set is the two retained annulus samples — not the
central-rectangle samples alone, so the annulus samples are not
discarded. -/
theorem c3_annulus_samples_kept_counterexample :
    (annulusSamples c3buf 10 10).length = 2 ∧
    fallbackSamples c3buf 10 10 = [] ∧
    collectSamples c3buf 10 10 = [⟨100, 150, 200⟩, ⟨100, 150, 200⟩] ∧
    collectSamples c3buf 10 10 ≠ fallbackSamples c3buf 10 10 := by
  decide

/-- C3 (amended): when the annulus pass yields fewer than 20 samples, the
final sample set is the annulus samples *followed by* the
central-rectangle samples (stride 2, lightness ∈ (0.06,0.92), saturation
≥ 0.05); the annulus samples are kept, not discarded. -/
theorem c3_fallback_appends (pixels : List ℕ) (w h : ℕ)
    (hlt : (annulusSamples pixels w h).length < 20) :
    collectSamples pixels w h = annulusSamples pixels w h ++ fallbackSamples pixels w h := by
  unfold collectSamples
  rw [if_pos hlt]

set_option maxRecDepth 1000000 in
/-- Witness for C3 (amended) on the concrete buffer `c3buf`. -/
theorem c3_fallback_appends_witness :
    (annulusSamples c3buf 10 10).length < 20 ∧
    collectSamples c3buf 10 10 = annulusSamples c3buf 10 10 ++ fallbackSamples c3buf 10 10 :=
  ⟨by decide, c3_fallback_appends c3buf 10 10 (by decide)⟩

/-- C9: `deltaE76` is zero on any valid color paired with itself, and is
symmetric on all inputs (including the `⊤`/Infinity sentinel cases). -/
theorem c9_deltaE76_identity_and_symmetry (a b c : String)
    (hc : (hexToRgb c).isSome) :
    deltaE76 c c = 0 ∧ deltaE76 a b = deltaE76 b a := by
  constructor
  · obtain ⟨p, hp⟩ := Option.isSome_iff_exists.mp hc
    unfold deltaE76
    rw [hp]
    dsimp only
    norm_num [Real.sqrt_zero]
  · unfold deltaE76
    cases hexToRgb a <;> cases hexToRgb b <;> dsimp only
    rw [WithTop.coe_eq_coe]
    congr 1
    ring

/-- Witness for C9 at concrete colors. -/
theorem c9_deltaE76_identity_and_symmetry_witness :
    (hexToRgb "#4682B4").isSome ∧
    (deltaE76 "#4682B4" "#4682B4" = 0 ∧
      deltaE76 "#000000" "#ffffff" = deltaE76 "#ffffff" "#000000") :=
  ⟨by decide, c9_deltaE76_identity_and_symmetry "#000000" "#ffffff" "#4682B4" (by decide)⟩

/-- `hexVal` inverts `hexChar` on digit values below 16. -/
theorem hexVal_hexChar (d : ℕ) (hd : d < 16) : hexVal (hexChar d) = some d := by
  interval_cases d <;> decide

/-- On an integer channel value in [0,255], `hexByte` is the two-digit
base-16 expansion. -/
theorem hexByte_ofNat (n : ℕ) (hn : n ≤ 255) :
    hexByte (n : ℚ) = [hexChar (n / 16), hexChar (n % 16)] := by
  have h1 : ((n : ℚ) ≤ 255) := by exact_mod_cast hn
  have h0 : ((0 : ℚ) ≤ (n : ℚ)) := by positivity
  have hmin : jsMin 255 (n : ℚ) = (n : ℚ) := by
    unfold jsMin
    split_ifs with h
    · exact le_antisymm h1 h ▸ rfl
    · rfl
  have hclamp : clamp255 (n : ℚ) = (n : ℚ) := by
    unfold clamp255
    rw [hmin]
    unfold jsMax
    rw [if_pos h0]
  have hround : jsRound (n : ℚ) = (n : ℤ) := by
    unfold jsRound
    rw [show ((n : ℚ) + 1/2) = ((n : ℤ) : ℚ) + 1/2 by push_cast; ring]
    rw [Int.floor_int_add]
    norm_num
  unfold hexByte
  rw [hclamp, hround]
  norm_num

/-- C7: for all integer channels in [0,255], `hexToRgb` inverts
`rgbToHex` exactly (hex round-trip law). -/
theorem c7_hex_roundtrip (r g b : ℕ) (hr : r ≤ 255) (hg : g ≤ 255) (hb : b ≤ 255) :
    hexToRgb (rgbToHex (r : ℚ) (g : ℚ) (b : ℚ)) = some ⟨r, g, b⟩ := by
  unfold rgbToHex hexToRgb
  rw [hexByte_ofNat r hr, hexByte_ofNat g hg, hexByte_ofNat b hb]
  simp only [List.cons_append, List.nil_append, List.head?_cons, List.tail_cons,
    if_true]
  rw [hexVal_hexChar (r / 16) (by omega), hexVal_hexChar (r % 16) (by omega),
    hexVal_hexChar (g / 16) (by omega), hexVal_hexChar (g % 16) (by omega),
    hexVal_hexChar (b / 16) (by omega), hexVal_hexChar (b % 16) (by omega)]
  dsimp only
  congr 1
  refine RGB.mk.injEq .. ▸ ?_
  omega

/-- Witness for C7 at (70, 130, 180). -/
theorem c7_hex_roundtrip_witness :
    hexToRgb (rgbToHex (70 : ℚ) (130 : ℚ) (180 : ℚ)) = some ⟨70, 130, 180⟩ := by
  have h := c7_hex_roundtrip 70 130 180 (by decide) (by decide) (by decide)
  rw [show ((70 : ℕ) : ℚ) = (70 : ℚ) by norm_num,
    show ((130 : ℕ) : ℚ) = (130 : ℚ) by norm_num,
    show ((180 : ℕ) : ℚ) = (180 : ℚ) by norm_num] at h
  exact h

/-- On an all-transparent buffer every annulus candidate is rejected by
the alpha filter (or the bounds check), so the annulus pass is empty. -/
theorem annulusSamples_eq_nil_of_transparent (pixels : List ℕ) (w h : ℕ)
    (hlen : pixels.length = 4 * (w * h))
    (halpha : ∀ j, j < w * h → pixels.getD (4 * j + 3) 255 = 0) :
    annulusSamples pixels w h = [] := by
  unfold annulusSamples
  rw [List.flatMap_eq_nil_iff]
  intro y hy
  rw [List.filterMap_eq_nil_iff]
  intro x hx
  simp only [List.mem_range] at hy hx
  dsimp only
  by_cases h1 : (((x : ℚ) - (findPupilCenter pixels w h).1) * ((x : ℚ) - (findPupilCenter pixels w h).1) +
      ((y : ℚ) - (findPupilCenter pixels w h).2) * ((y : ℚ) - (findPupilCenter pixels w h).2) <
        jsMin (w : ℚ) (h : ℚ) * 0.45 * 0.22 * (jsMin (w : ℚ) (h : ℚ) * 0.45 * 0.22) ∨
      ((x : ℚ) - (findPupilCenter pixels w h).1) * ((x : ℚ) - (findPupilCenter pixels w h).1) +
      ((y : ℚ) - (findPupilCenter pixels w h).2) * ((y : ℚ) - (findPupilCenter pixels w h).2) >
        jsMin (w : ℚ) (h : ℚ) * 0.45 * 0.85 * (jsMin (w : ℚ) (h : ℚ) * 0.45 * 0.85))
  · rw [if_pos h1]
  · rw [if_neg h1]
    by_cases h2 : pixels.length ≤ (y * w + x) * 4 + 3
    · rw [if_pos h2]
    · rw [if_neg h2]
      have hj : y * w + x < w * h := by omega
      have ha : pixels.getD ((y * w + x) * 4 + 3) 255 = 0 := by
        have hv := halpha (y * w + x) hj
        rwa [Nat.mul_comm 4 (y * w + x)] at hv
      rw [if_pos (by rw [ha]; norm_num)]

/-- On an all-transparent buffer the central-rectangle fallback pass is
likewise empty. -/
theorem fallbackSamples_eq_nil_of_transparent (pixels : List ℕ) (w h : ℕ)
    (hlen : pixels.length = 4 * (w * h))
    (halpha : ∀ j, j < w * h → pixels.getD (4 * j + 3) 255 = 0) :
    fallbackSamples pixels w h = [] := by
  unfold fallbackSamples
  rw [List.flatMap_eq_nil_iff]
  intro y hy
  rw [List.filterMap_eq_nil_iff]
  intro x hx
  dsimp only
  by_cases h2 : pixels.length ≤ (y * w + x) * 4 + 3
  · rw [if_pos h2]
  · rw [if_neg h2]
    have hj : y * w + x < w * h := by omega
    have ha : pixels.getD ((y * w + x) * 4 + 3) 255 = 0 := by
      have hv := halpha (y * w + x) hj
      rwa [Nat.mul_comm 4 (y * w + x)] at hv
    rw [if_pos (by rw [ha]; norm_num)]

/-- C2 (code bug): an all-transparent buffer does produce the single
neutral-gray dominant color {hex = "#708090", percentage = 100} exactly
as claimed, but the resulting general color is the *Hazel* category, not
Gray: for every named-shade breakdown, `pickGeneralColor` on that single
gray either takes the hazel override or classifies "#708090", whose
source-computed hue is 60° (the hazel band) because of the `getHSL` hue
bug — the true hue of "#708090" is 210°. -/
theorem c2_transparent_buffer (w h : ℕ) (pixels : List ℕ)
    (hlen : pixels.length = 4 * (w * h))
    (halpha : ∀ j, j < w * h → pixels.getD (4 * j + 3) 255 = 0) :
    getDominantColors pixels w h 10 = [⟨"#708090", 100⟩] ∧
    (∀ nb, (pickGeneralColor [⟨"#708090", 100⟩] nb).category = EYE_COLOR_CATEGORIES.hazel) ∧
    EYE_COLOR_CATEGORIES.hazel ≠ EYE_COLOR_CATEGORIES.gray := by
  refine ⟨?_, ?_, by decide⟩
  · have hs : collectSamples pixels w h = [] := by
      unfold collectSamples
      rw [annulusSamples_eq_nil_of_transparent pixels w h hlen halpha]
      rw [fallbackSamples_eq_nil_of_transparent pixels w h hlen halpha]
      norm_num
    unfold getDominantColors
    rw [hs]
    simp
  · intro nb
    unfold pickGeneralColor
    dsimp only
    by_cases hov : 15 ≤ brownPct nb ∧ 15 ≤ greenPct nb
    · rw [if_pos hov]
    · rw [if_neg hov]
      decide

/-- Witness for C2 on a concrete all-transparent 2×2 buffer. -/
theorem c2_transparent_buffer_witness :
    transparentBuf.length = 4 * (2 * 2) ∧
    (∀ j, j < 2 * 2 → transparentBuf.getD (4 * j + 3) 255 = 0) ∧
    getDominantColors transparentBuf 2 2 10 = [⟨"#708090", 100⟩] ∧
    (pickGeneralColor [⟨"#708090", 100⟩] []).category = EYE_COLOR_CATEGORIES.hazel :=
  have h := c2_transparent_buffer 2 2 transparentBuf (by decide) (by decide)
  ⟨by decide, by decide, h.1, h.2.1 []⟩

/-- `distLE` is transitive. -/
theorem distLE_trans (a b c : DistEntry) (hab : distLE a b) (hbc : distLE b c) :
    distLE a c := by
  rcases hab with h | ⟨he, hi⟩ <;> rcases hbc with h' | ⟨he', hi'⟩
  · exact Or.inl (lt_trans h h')
  · exact Or.inl (he' ▸ h)
  · exact Or.inl (he ▸ h')
  · exact Or.inr ⟨he.trans he', le_trans hi hi'⟩

/-- `distLE` is total. -/
theorem distLE_total (a b : DistEntry) : distLE a b ∨ distLE b a := by
  rcases lt_trichotomy a.distance b.distance with h | h | h
  · exact Or.inl (Or.inl h)
  · rcases Nat.le_total a.idx b.idx with hi | hi
    · exact Or.inl (Or.inr ⟨h, hi⟩)
    · exact Or.inr (Or.inl h.symm |>.elim (fun _ => Or.inr ⟨h.symm, hi⟩) id)
  · exact Or.inr (Or.inl h)

/-- `distLE` implies comparison of the distances themselves. -/
theorem distLE_le {a b : DistEntry} (h : distLE a b) : a.distance ≤ b.distance := by
  rcases h with h | ⟨he, -⟩
  · exact le_of_lt h
  · exact le_of_eq he

/-- Rounding distances is monotone (also through the `⊤` sentinel). -/
theorem roundTop_mono {a b : WithTop ℝ} (h : a ≤ b) : roundTop a ≤ roundTop b := by
  induction a using WithTop.recTopCoe with
  | top =>
    rw [top_le_iff.mp h]
  | coe x =>
    induction b using WithTop.recTopCoe with
    | top =>
      simp [roundTop]
    | coe y =>
      have hxy : x ≤ y := WithTop.coe_le_coe.mp h
      simp only [roundTop, WithTop.map_coe]
      exact WithTop.coe_le_coe.mpr (Int.floor_le_floor (by linarith))

/-- The decorated, sorted match list is sorted by (distance, original
table position): ascending distances, ties broken by table order. -/
theorem sortedMatches_sorted (table : List RefColor) (hex : String) :
    List.Sorted distLE (sortedMatches table hex) := by
  unfold sortedMatches
  have hp := @List.sorted_mergeSort DistEntry (fun a b => decide (distLE a b))
    (fun a b c hab hbc =>
      decide_eq_true (distLE_trans a b c (of_decide_eq_true hab) (of_decide_eq_true hbc)))
    (fun a b => by
      rcases distLE_total a b with h | h <;> simp [h])
    (withDistance table hex)
  exact hp.imp fun h => of_decide_eq_true h

/-- The sorted list has the table's length. -/
theorem sortedMatches_length (table : List RefColor) (hex : String) :
    (sortedMatches table hex).length = table.length := by
  unfold sortedMatches withDistance
  simp

/-- C6: `findPantoneMatches` returns exactly `min k tableSize` entries;
their (rounded) distances are non-decreasing; the underlying sorted order
breaks distance ties by original reference-table position; and when
`k ≥ tableSize` the output is the whole (decorated) table. -/
theorem c6_findPantoneMatches_spec (table : List RefColor) (hex : String) (k : ℕ)
    (_hk : 1 ≤ k) :
    (findPantoneMatches table hex k).length = min k table.length ∧
    List.Sorted (· ≤ ·) ((findPantoneMatches table hex k).map (·.distance)) ∧
    List.Sorted distLE (sortedMatches table hex) ∧
    (table.length ≤ k →
      (findPantoneMatches table hex k).Perm
        ((withDistance table hex).map fun e =>
          ⟨e.name.replace "-" " ", e.hex, roundTop e.distance⟩)) := by
  have hsorted := sortedMatches_sorted table hex
  refine ⟨?_, ?_, hsorted, ?_⟩
  · unfold findPantoneMatches
    rw [List.length_map, List.length_take, sortedMatches_length]
  · unfold findPantoneMatches
    have hp : List.Pairwise distLE ((sortedMatches table hex).take k) :=
      List.Pairwise.sublist (List.take_sublist k _) hsorted
    rw [List.map_map, List.Sorted, List.pairwise_map]
    exact hp.imp fun h => roundTop_mono (distLE_le h)
  · intro hk2
    unfold findPantoneMatches
    rw [List.take_of_length_le (by rw [sortedMatches_length]; exact hk2)]
    exact (List.mergeSort_perm _ _).map _

/-- Witness for C6 on a concrete two-entry reference table with k = 1. -/
theorem c6_findPantoneMatches_spec_witness :
    (findPantoneMatches pantoneTable2 "#4682B4" 1).length = min 1 pantoneTable2.length ∧
    List.Sorted (· ≤ ·) ((findPantoneMatches pantoneTable2 "#4682B4" 1).map (·.distance)) ∧
    List.Sorted distLE (sortedMatches pantoneTable2 "#4682B4") ∧
    (pantoneTable2.length ≤ 1 →
      (findPantoneMatches pantoneTable2 "#4682B4" 1).Perm
        ((withDistance pantoneTable2 "#4682B4").map fun e =>
          ⟨e.name.replace "-" " ", e.hex, roundTop e.distance⟩)) :=
  c6_findPantoneMatches_spec pantoneTable2 "#4682B4" 1 (by decide)

/-- Rounding is monotone. -/
theorem jsRound_mono {a b : ℚ} (h : a ≤ b) : jsRound a ≤ jsRound b :=
  Int.floor_le_floor (by linarith)

/-- Rounding a nonnegative number is nonnegative. -/
theorem jsRound_nonneg {q : ℚ} (h : 0 ≤ q) : 0 ≤ jsRound q :=
  Int.le_floor.mpr (by push_cast; linarith)

/-- `jsRound q ≤ m` when `q ≤ m`. -/
theorem jsRound_le_of_le {q : ℚ} {m : ℤ} (h : q ≤ (m : ℚ)) : jsRound q ≤ m := by
  have hlt : jsRound q < m + 1 := Int.floor_lt.mpr (by push_cast; linarith)
  omega

/-- Rounding moves a rational by at most one half. -/
theorem jsRound_sub_abs (q : ℚ) : |(jsRound q : ℚ) - q| ≤ 1/2 := by
  have h1 : (jsRound q : ℚ) ≤ q + 1/2 := Int.floor_le (q + 1/2)
  have h2 : q + 1/2 - 1 < jsRound q := Int.sub_one_lt_floor (q + 1/2)
  rw [abs_le]
  constructor <;> linarith

/-- A list of rounded values sums to within half a unit per entry of the
sum of the unrounded values. -/
theorem sum_jsRound_close (l : List ℚ) :
    |(l.map fun q => ((jsRound q : ℤ) : ℚ)).sum - l.sum| ≤ (l.length : ℚ) * (1/2) := by
  induction l with
  | nil => simp
  | cons q rest ih =>
    simp only [List.map_cons, List.sum_cons, List.length_cons]
    have h1 := jsRound_sub_abs q
    have h3 : ((jsRound q : ℤ) : ℚ) + (rest.map fun q => ((jsRound q : ℤ) : ℚ)).sum -
        (q + rest.sum) =
        (((jsRound q : ℤ) : ℚ) - q) +
          ((rest.map fun q => ((jsRound q : ℤ) : ℚ)).sum - rest.sum) := by ring
    rw [h3]
    calc |(((jsRound q : ℤ) : ℚ) - q) +
          ((rest.map fun q => ((jsRound q : ℤ) : ℚ)).sum - rest.sum)|
        ≤ |((jsRound q : ℤ) : ℚ) - q| +
          |(rest.map fun q => ((jsRound q : ℤ) : ℚ)).sum - rest.sum| := abs_add _ _
      _ ≤ 1/2 + (rest.length : ℚ) * (1/2) := add_le_add h1 ih
      _ = ((rest.length : ℚ) + 1) * (1/2) := by ring
      _ = (((rest.length : ℕ) + 1 : ℕ) : ℚ) * (1/2) := by push_cast; ring

/-- Every bucket produced by the accumulation loop has a positive pixel
count. -/
theorem addSample_count_pos (acc : List Bucket) (p : RGB)
    (hacc : ∀ bk ∈ acc, 1 ≤ bk.count) : ∀ bk ∈ addSample acc p, 1 ≤ bk.count := by
  intro bk hbk
  unfold addSample at hbk
  dsimp only at hbk
  split_ifs at hbk with hmem
  · rcases List.mem_map.mp hbk with ⟨b0, hb0, rfl⟩
    by_cases hkey : b0.key = labKey p
    · simp only [hkey, if_true]
      omega
    · simp only [hkey, if_false]
      exact hacc b0 hb0
  · rcases List.mem_append.mp hbk with h | h
    · exact hacc bk h
    · rw [List.mem_singleton] at h
      subst h
      exact le_refl 1

theorem foldl_addSample_count_pos (samples : List RGB) (acc : List Bucket)
    (hacc : ∀ bk ∈ acc, 1 ≤ bk.count) :
    ∀ bk ∈ samples.foldl addSample acc, 1 ≤ bk.count := by
  induction samples generalizing acc with
  | nil => exact hacc
  | cons p rest ih => exact ih _ (addSample_count_pos acc p hacc)

/-- Accumulating a sample never empties the bucket list. -/
theorem addSample_length_pos (acc : List Bucket) (p : RGB) :
    0 < (addSample acc p).length := by
  unfold addSample
  dsimp only
  split_ifs with hmem
  · rw [List.length_map]
    rcases List.any_eq_true.mp hmem with ⟨x, hx, -⟩
    exact List.length_pos.mpr (List.ne_nil_of_mem hx)
  · rw [List.length_append]
    simp

theorem foldl_addSample_ne_nil_of_ne_nil (samples : List RGB) (acc : List Bucket)
    (hacc : acc ≠ []) : samples.foldl addSample acc ≠ [] := by
  induction samples generalizing acc with
  | nil => exact hacc
  | cons p rest ih =>
    exact ih _ (List.length_pos.mp (addSample_length_pos acc p))

/-- A nonempty sample list produces a nonempty bucket list. -/
theorem foldl_addSample_ne_nil (samples : List RGB) (hs : samples ≠ []) :
    samples.foldl addSample [] ≠ [] := by
  match samples, hs with
  | p :: rest, _ =>
    rw [List.foldl_cons]
    exact foldl_addSample_ne_nil_of_ne_nil rest _
      (List.length_pos.mp (addSample_length_pos [] p))

/-- `countGE` is transitive. -/
theorem countGE_trans (a b c : ℕ × MeanColor) (hab : countGE a b) (hbc : countGE b c) :
    countGE a c := by
  unfold countGE at *
  omega

/-- `countGE` is total. -/
theorem countGE_total (a b : ℕ × MeanColor) : countGE a b ∨ countGE b a := by
  unfold countGE
  omega

/-- A nonempty sample set and a positive `numColors` keep at least one
bucket. -/
theorem clusterKept_ne_nil (samples : List RGB) (numColors : ℕ)
    (hs : samples ≠ []) (hn : 1 ≤ numColors) :
    clusterKept samples numColors ≠ [] := by
  unfold clusterKept
  dsimp only
  intro hcon
  rcases List.take_eq_nil_iff.mp hcon with h | h
  · omega
  · rw [List.map_eq_nil_iff] at h
    have hlen := congrArg List.length h
    simp only [List.length_mergeSort, List.enum_length, List.length_nil] at hlen
    unfold bucketMeans at hlen
    rw [List.length_map, List.length_eq_zero] at hlen
    exact foldl_addSample_ne_nil samples hs hlen

/-- Every kept bucket has a positive count. -/
theorem clusterKept_count_pos (samples : List RGB) (numColors : ℕ) :
    ∀ s ∈ clusterKept samples numColors, 1 ≤ s.count := by
  intro s hsk
  unfold clusterKept at hsk
  dsimp only at hsk
  have hs2 := List.mem_of_mem_take hsk
  rcases List.mem_map.mp hs2 with ⟨p, hp, rfl⟩
  rw [List.mem_mergeSort] at hp
  have hsnd : p.2 ∈ bucketMeans (samples.foldl addSample []) := by
    have hm := List.mem_map_of_mem Prod.snd hp
    rwa [List.enum_map_snd] at hm
  rcases List.mem_map.mp hsnd with ⟨bk, hbk, heq⟩
  rw [← heq]
  exact foldl_addSample_count_pos samples [] (by simp) bk hbk

/-- The kept buckets are ordered by non-increasing count. -/
theorem clusterKept_sorted (samples : List RGB) (numColors : ℕ) :
    (clusterKept samples numColors).Pairwise fun s t => t.count ≤ s.count := by
  unfold clusterKept
  dsimp only
  apply List.Pairwise.sublist (List.take_sublist _ _)
  rw [List.pairwise_map]
  have hp := @List.sorted_mergeSort (ℕ × MeanColor) (fun a b => decide (countGE a b))
    (fun a b c hab hbc =>
      decide_eq_true (countGE_trans a b c (of_decide_eq_true hab) (of_decide_eq_true hbc)))
    (fun a b => by rcases countGE_total a b with h | h <;> simp [h])
    ((bucketMeans (samples.foldl addSample [])).enum)
  refine hp.imp fun h => ?_
  have h2 := of_decide_eq_true h
  unfold countGE at h2
  omega

/-- Structural percentage facts about one batch of kept buckets: each
percentage is in [0,100], the percentages sum to within ±(number of kept
buckets) of 100, and percentages are non-increasing along the kept
order. -/
theorem percent_spec (K : List MeanColor)
    (hne : K ≠ []) (hcnt : ∀ s ∈ K, 1 ≤ s.count)
    (hdesc : K.Pairwise fun s t => t.count ≤ s.count) :
    (∀ s ∈ K, 0 ≤ bucketPercentage ((K.map (·.count)).sum) s ∧
        bucketPercentage ((K.map (·.count)).sum) s ≤ 100) ∧
    |(K.map (bucketPercentage ((K.map (·.count)).sum))).sum - 100| ≤ (K.length : ℤ) ∧
    K.Pairwise (fun s t => bucketPercentage ((K.map (·.count)).sum) t ≤
      bucketPercentage ((K.map (·.count)).sum) s) := by
  set T : ℕ := (K.map (·.count)).sum with hTdef
  have hT1 : 1 ≤ T := by
    rcases List.exists_mem_of_ne_nil K hne with ⟨s, hsK⟩
    have h1 := hcnt s hsK
    have h2 : s.count ≤ T := List.le_sum_of_mem (List.mem_map_of_mem (·.count) hsK)
    omega
  have hTpos : (0 : ℚ) < (T : ℚ) := by exact_mod_cast hT1
  refine ⟨?_, ?_, ?_⟩
  · intro s hsK
    constructor
    · exact jsRound_nonneg (by positivity)
    · apply jsRound_le_of_le
      have hsc : s.count ≤ T := List.le_sum_of_mem (List.mem_map_of_mem (·.count) hsK)
      have hdiv : ((s.count : ℚ) / (T : ℚ)) ≤ 1 := by
        rw [div_le_one hTpos]
        exact_mod_cast hsc
      push_cast
      nlinarith [hdiv]
  · have hexact : (K.map fun s => ((s.count : ℚ) / (T : ℚ)) * 100).sum = 100 := by
      have hcongr : (K.map fun s => ((s.count : ℚ) / (T : ℚ)) * 100) =
          K.map fun s => ((s.count : ℚ)) * (100 / (T : ℚ)) := by
        apply List.map_congr_left
        intro s _
        ring
      rw [hcongr, List.sum_map_mul_right]
      have hcast : (K.map fun s => ((s.count : ℚ))).sum = ((T : ℕ) : ℚ) := by
        rw [hTdef, Nat.cast_list_sum, List.map_map]
        rfl
      rw [hcast]
      field_simp
    have happrox := sum_jsRound_close (K.map fun s => ((s.count : ℚ) / (T : ℚ)) * 100)
    rw [List.map_map, hexact, List.length_map] at happrox
    have hcast2 : (((K.map (bucketPercentage T)).sum : ℤ) : ℚ) =
        ((K.map fun s => ((s.count : ℚ) / (T : ℚ)) * 100).map
          fun q => ((jsRound q : ℤ) : ℚ)).sum := by
      rw [Int.cast_list_sum, List.map_map, List.map_map]
      rfl
    have hq : |(((K.map (bucketPercentage T)).sum : ℤ) : ℚ) - 100| ≤ (K.length : ℚ) := by
      rw [hcast2]
      calc |((K.map fun s => ((s.count : ℚ) / (T : ℚ)) * 100).map
              fun q => ((jsRound q : ℤ) : ℚ)).sum - 100|
          ≤ (K.length : ℚ) * (1/2) := by
            rw [List.map_map]
            exact happrox
        _ ≤ (K.length : ℚ) := by
            have : (0 : ℚ) ≤ (K.length : ℚ) := by positivity
            linarith
    have hfin : |((K.map (bucketPercentage T)).sum - 100 : ℤ)| ≤ (K.length : ℤ) := by
      have h := hq
      rw [show (((K.map (bucketPercentage T)).sum : ℤ) : ℚ) - 100 =
        (((K.map (bucketPercentage T)).sum - 100 : ℤ) : ℚ) by push_cast; ring] at h
      rw [← Int.cast_abs] at h
      exact_mod_cast h
    exact hfin
  · refine hdesc.imp fun hst => ?_
    apply jsRound_mono
    gcongr

/-- C8: for every non-empty sample set (and positive bucket limit), the
dominant colors produced by the clusterer each carry a percentage in
[0,100], the percentages sum to within ±N of 100 where N is the number of
retained buckets, and the list is ordered by non-increasing percentage. -/
theorem c8_cluster_percentages (samples : List RGB) (numColors : ℕ)
    (hs : samples ≠ []) (hn : 1 ≤ numColors) :
    (∀ d ∈ clusterSamples samples numColors, 0 ≤ d.percentage ∧ d.percentage ≤ 100) ∧
    |((clusterSamples samples numColors).map (·.percentage)).sum - 100| ≤
      ((clusterSamples samples numColors).length : ℤ) ∧
    List.Sorted (· ≥ ·) ((clusterSamples samples numColors).map (·.percentage)) := by
  obtain ⟨h1, h2, h3⟩ := percent_spec (clusterKept samples numColors)
    (clusterKept_ne_nil samples numColors hs hn)
    (clusterKept_count_pos samples numColors)
    (clusterKept_sorted samples numColors)
  have hout : clusterSamples samples numColors =
      (clusterKept samples numColors).map fun s =>
        ⟨rgbToHex (s.r : ℚ) (s.g : ℚ) (s.b : ℚ),
          bucketPercentage (((clusterKept samples numColors).map (·.count)).sum) s⟩ := rfl
  refine ⟨?_, ?_, ?_⟩
  · intro d hd
    rw [hout] at hd
    rcases List.mem_map.mp hd with ⟨s, hsK, rfl⟩
    exact h1 s hsK
  · rw [hout, List.map_map, List.length_map]
    exact h2
  · rw [hout, List.map_map, List.Sorted, List.pairwise_map]
    exact h3

/-- Witness for C8 on a one-sample set with one bucket kept. -/
theorem c8_cluster_percentages_witness :
    (([⟨10, 20, 30⟩] : List RGB) ≠ []) ∧ (1 : ℕ) ≤ 1 ∧
    ((∀ d ∈ clusterSamples [⟨10, 20, 30⟩] 1, 0 ≤ d.percentage ∧ d.percentage ≤ 100) ∧
      |((clusterSamples [⟨10, 20, 30⟩] 1).map (·.percentage)).sum - 100| ≤
        ((clusterSamples [⟨10, 20, 30⟩] 1).length : ℤ) ∧
      List.Sorted (· ≥ ·) ((clusterSamples [⟨10, 20, 30⟩] 1).map (·.percentage))) :=
  ⟨by decide, by decide, c8_cluster_percentages [⟨10, 20, 30⟩] 1 (by decide) (by decide)⟩
